import Mathlib

/-!
Verification development for `sql/filesort_utils.cc` (MySQL filesort memory
and cost-model subsystem).

The embedding models:
* the cost model: `get_merge_cost` and `get_merge_many_buffs_cost_fast`
  (C doubles are idealised as real numbers; the abstract cost table
  `Cost_model_table` is passed as the two functions `io_block_read_cost`
  and `key_compare_cost`);
* the comparison strategies: `my_mem_compare`, `my_mem_compare_longkey`
  and the per-call strategy selection of `Filesort_buffer::sort_buffer`
  (`std::stable_sort` is modelled by a stable insertion sort; `std::sort`
  only promises a sorted result, and no claim below depends on the tie
  order of the non-stable paths, so it is modelled by the same
  deterministic sort);
* the arena: `Filesort_buffer` with `allocate_block`,
  `allocate_sized_block`, `preallocate_records`, `reset`,
  `free_sort_buffer`.  `ha_rows`/`size_t` values are modelled as `Nat`
  (no claim below depends on 64-bit wraparound).  Host allocation
  (`my_malloc`) can fail; each mutating operation takes an explicit
  `mallocOk : Bool` oracle for the outcome of its allocation attempts.
-/

namespace Filesort

/-- Modelled from the spec: `IO_BLOCK_SIZE`, the I/O unit used by the cost
model.  The constant comes from `my_io.h`, which is not under `src/`;
MySQL defines `IO_SIZE` as 4096. -/
def IO_SIZE : ℕ := 4096

/-- Modelled from the spec: the fixed merge fan-in `MERGE_FANIN`.  The
constant comes from `sql_sort.h`, which is not under `src/`; MySQL
defines `MERGEBUFF` as 7. -/
def MERGEBUFF : ℕ := 7

/-- Modelled from the spec: the merge threshold `MERGE_THRESHOLD_2`.  The
constant comes from `sql_sort.h`, which is not under `src/`; MySQL
defines `MERGEBUFF2` as 15. -/
def MERGEBUFF2 : ℕ := 15

/-- `get_merge_cost` (filesort_utils.cc line 45): cost of one
`merge_buffers` call.  `io_ops = double(num_elements * elem_size) / IO_SIZE`,
`io_cost = io_block_read_cost(io_ops)`,
`cpu_cost = key_compare_cost(num_elements * log2(num_buffers))`,
result `2 * io_cost + cpu_cost`. -/
noncomputable def get_merge_cost (num_elements num_buffers : ℕ) (elem_size : ℕ)
    (io_block_read_cost key_compare_cost : ℝ → ℝ) : ℝ :=
  let io_ops : ℝ := ((num_elements * elem_size : ℕ) : ℝ) / (IO_SIZE : ℝ)
  let io_cost : ℝ := io_block_read_cost io_ops
  let cpu_cost : ℝ :=
    key_compare_cost ((num_elements : ℝ) * Real.logb 2 (num_buffers : ℝ))
  2 * io_cost + cpu_cost

/-- The `while (num_buffers >= MERGEBUFF2)` loop of
`get_merge_many_buffs_cost_fast` (lines 77-98), followed by the final
`merge_buff` simulation (lines 100-103).  Arguments are the loop-mutated
variables `num_buffers`, `num_keys_per_buffer`, `last_n_elems`; the
result is the cost accumulated from the loop entry onwards. -/
noncomputable def merge_many_loop (elem_size : ℕ) (io kcc : ℝ → ℝ) :
    ℕ → ℕ → ℕ → ℝ
  | num_buffers, num_keys_per_buffer, last_n_elems =>
    if h : MERGEBUFF2 ≤ num_buffers then
      let loop_limit := num_buffers - MERGEBUFF * 3 / 2
      let num_merge_calls := 1 + loop_limit / MERGEBUFF
      let num_remaining_buffs := num_buffers - num_merge_calls * MERGEBUFF
      let merge_calls_cost : ℝ := (num_merge_calls : ℝ) *
        get_merge_cost (num_keys_per_buffer * MERGEBUFF) MERGEBUFF elem_size io kcc
      let last2 := last_n_elems + num_remaining_buffs * num_keys_per_buffer
      let remaining_cost : ℝ :=
        get_merge_cost last2 (1 + num_remaining_buffs) elem_size io kcc
      merge_calls_cost + remaining_cost +
        merge_many_loop elem_size io kcc num_merge_calls
          (num_keys_per_buffer * MERGEBUFF) last2
    else
      get_merge_cost (last_n_elems + num_keys_per_buffer * num_buffers)
        (1 + num_buffers) elem_size io kcc
termination_by nb _ _ => nb
decreasing_by
  simp only [MERGEBUFF, MERGEBUFF2] at *
  omega

/-- `get_merge_many_buffs_cost_fast` (filesort_utils.cc lines 62-105). -/
noncomputable def get_merge_many_buffs_cost_fast (num_rows num_keys_per_buffer : ℕ)
    (elem_size : ℕ) (io kcc : ℝ → ℝ) : ℝ :=
  let num_buffers := num_rows / num_keys_per_buffer
  let last_n_elems := num_rows % num_keys_per_buffer
  let total_cost : ℝ :=
    (num_buffers : ℝ) *
        kcc ((num_keys_per_buffer : ℝ) * Real.log (1 + (num_keys_per_buffer : ℝ))) +
      kcc ((last_n_elems : ℝ) * Real.log (1 + (last_n_elems : ℝ)))
  total_cost +
    merge_many_loop elem_size io kcc num_buffers num_keys_per_buffer last_n_elems

/-! ### Comparators and `sort_buffer` -/

/-- Byte `i` of a key, the dereference `s[i]` of an `uchar` pointer.  Keys
are byte lists; a record always holds at least the compared number of
bytes (caller contract), missing bytes are read as 0. -/
def byteAt : List ℕ → ℕ → ℕ
  | [], _ => 0
  | b :: _, 0 => b
  | _ :: s, n + 1 => byteAt s n

/-- The first `n` compared bytes of a key (`byteAt` 0 .. `n`-1). -/
def firstBytes : List ℕ → ℕ → List ℕ
  | _, 0 => []
  | s, n + 1 => byteAt s 0 :: firstBytes s.tail n

/-- `my_mem_compare` (filesort_utils.cc lines 114-122): byte-by-byte
`memcmp`-style "less-than".  The source's do-while requires `len > 0`
(`DBUG_ASSERT(len > 0)`); at `len = 0` the C loop would read one byte and
underflow `len`, which is a caller error, modelled as `false`. -/
def my_mem_compare : List ℕ → List ℕ → ℕ → Bool
  | _, _, 0 => false
  | s1, s2, len + 1 =>
    if byteAt s1 0 ≠ byteAt s2 0 then decide (byteAt s1 0 < byteAt s2 0)
    else my_mem_compare s1.tail s2.tail len

/-- `my_mem_compare_longkey` (filesort_utils.cc lines 127-134): compares
bytes 0..3 individually (the `COMPARE(N)` macro), then falls back to
`memcmp(s1 + 4, s2 + 4, len - 4) < 0`; a `memcmp < 0` over `len - 4`
bytes coincides with the byte-by-byte loop of `my_mem_compare`. -/
def my_mem_compare_longkey (s1 s2 : List ℕ) (len : ℕ) : Bool :=
  if byteAt s1 0 ≠ byteAt s2 0 then decide (byteAt s1 0 < byteAt s2 0)
  else if byteAt s1 1 ≠ byteAt s2 1 then decide (byteAt s1 1 < byteAt s2 1)
  else if byteAt s1 2 ≠ byteAt s2 2 then decide (byteAt s1 2 < byteAt s2 2)
  else if byteAt s1 3 ≠ byteAt s2 3 then decide (byteAt s1 3 < byteAt s2 3)
  else my_mem_compare (s1.drop 4) (s2.drop 4) (len - 4)

/-- Stable insertion of `x` into a sorted list: `x` is placed before the
first element `y` that is not strictly less than `x`, so elements tied
with `x` that were inserted earlier stay before `x`. -/
def sortedInsert (lt : α → α → Bool) (x : α) : List α → List α
  | [] => [x]
  | y :: ys => if lt y x then y :: sortedInsert lt x ys else x :: y :: ys

/-- Stable comparison sort (model of `std::stable_sort`): elements are
inserted in input order, each after all earlier tied elements. -/
def stableSort (lt : α → α → Bool) : List α → List α
  | [] => []
  | x :: xs => sortedInsert lt x (stableSort lt xs)

/-- Sorting the first `count` entries of the record pointer array
(`begin(m_record_pointers)` .. `begin(m_record_pointers) + count`);
entries beyond `count` are untouched. -/
def sortRange (lt : α → α → Bool) (l : List α) (count : ℕ) : List α :=
  stableSort lt (l.take count) ++ l.drop count

/-- Model of `std::sort` on the first `count` entries.  `std::sort` only
promises a sorted result; none of the verified claims depend on the tie
order of the non-stable paths, so it is modelled by the same
deterministic sort as `std::stable_sort`. -/
def sortRangeUnstable (lt : α → α → Bool) (l : List α) (count : ℕ) : List α :=
  sortRange lt l count

/-- `Sort_param::enum_sort_algorithm` (diagnostic record of the chosen
variant). -/
inductive Filesort_alg where
  | FILESORT_ALG_NONE
  | FILESORT_ALG_STD_SORT
  | FILESORT_ALG_STD_STABLE
deriving DecidableEq

/-- The fields of `Sort_param` read or written by `sort_buffer`.
`Sort_param` itself lives in `sort_param.h`, which is not under `src/`;
the accessors used by `sort_buffer` (`max_compare_length()`,
`using_varlen_keys()`, `using_addon_fields()`, `ref_length`,
`m_force_stable_sort`, `use_hash`, `m_sort_algorithm`) are modelled as
plain fields. -/
structure Sort_param where
  m_force_stable_sort : Bool
  m_sort_algorithm : Filesort_alg
  max_compare_length : ℕ
  ref_length : ℕ
  using_varlen_keys : Bool
  using_addon_fields : Bool
  use_hash : Bool
deriving DecidableEq

/-- `Filesort_buffer::sort_buffer` (filesort_utils.cc lines 185-248).
The record pointer array is a list of records `α`; `key r` gives the
bytes a record pointer dereferences to.  The variable-length comparator
`Mem_compare_varlen_key` wraps `cmp_varlen_keys(param->local_sortorder,
param->use_hash, s1, s2)` from `cmp_varlen_keys.h`, which is not under
`src/`; it is passed in as `varlenLt`. -/
def sort_buffer (param : Sort_param) (varlenLt : α → α → Bool)
    (key : α → List ℕ) (record_pointers : List α) (count : ℕ) :
    Sort_param × List α :=
  let force_stable_sort := param.m_force_stable_sort
  let param := { param with m_sort_algorithm := .FILESORT_ALG_NONE }
  if count ≤ 1 then (param, record_pointers)
  else if param.max_compare_length = 0 then (param, record_pointers)
  else if param.using_varlen_keys then
    if force_stable_sort then
      ({ param with m_sort_algorithm := .FILESORT_ALG_STD_STABLE },
       sortRange varlenLt record_pointers count)
    else
      ({ param with m_sort_algorithm := .FILESORT_ALG_STD_SORT },
       sortRangeUnstable varlenLt record_pointers count)
  else if count ≤ 100 ∧ force_stable_sort = false then
    if param.max_compare_length < 10 then
      ({ param with m_sort_algorithm := .FILESORT_ALG_STD_SORT },
       sortRangeUnstable
         (fun a b => my_mem_compare (key a) (key b) param.max_compare_length)
         record_pointers count)
    else
      ({ param with m_sort_algorithm := .FILESORT_ALG_STD_SORT },
       sortRangeUnstable
         (fun a b => my_mem_compare_longkey (key a) (key b) param.max_compare_length)
         record_pointers count)
  else
    let compare_len :=
      if force_stable_sort = true ∧ param.using_addon_fields = false
      then param.max_compare_length - param.ref_length
      else param.max_compare_length
    if compare_len < 10 then
      ({ param with m_sort_algorithm := .FILESORT_ALG_STD_STABLE },
       sortRange (fun a b => my_mem_compare (key a) (key b) compare_len)
         record_pointers count)
    else
      ({ param with m_sort_algorithm := .FILESORT_ALG_STD_STABLE },
       sortRange (fun a b => my_mem_compare_longkey (key a) (key b) compare_len)
         record_pointers count)

/-- Which byte comparator a `sort_buffer` call selects. -/
inductive CmpChoice where
  | varlenChoice
  | memChoice (len : ℕ)
  | longkeyChoice (len : ℕ)
deriving DecidableEq

/-- Compare length of a selected comparator (`varlenChoice` decodes
per-key lengths itself, reported as 0). -/
def cmpChoiceLen : CmpChoice → ℕ
  | .varlenChoice => 0
  | .memChoice len => len
  | .longkeyChoice len => len

/-- The comparator-selection logic of `sort_buffer`, branch for branch:
which comparator is invoked (`none` when no sorting happens) and whether
the stable variant (`std::stable_sort`) is used. -/
def sort_buffer_choice (param : Sort_param) (count : ℕ) :
    Option CmpChoice × Bool :=
  if count ≤ 1 then (none, false)
  else if param.max_compare_length = 0 then (none, false)
  else if param.using_varlen_keys then
    (some .varlenChoice, param.m_force_stable_sort)
  else if count ≤ 100 ∧ param.m_force_stable_sort = false then
    if param.max_compare_length < 10 then
      (some (.memChoice param.max_compare_length), false)
    else
      (some (.longkeyChoice param.max_compare_length), false)
  else
    let compare_len :=
      if param.m_force_stable_sort = true ∧ param.using_addon_fields = false
      then param.max_compare_length - param.ref_length
      else param.max_compare_length
    if compare_len < 10 then (some (.memChoice compare_len), true)
    else (some (.longkeyChoice compare_len), true)

/-! ### The sort arena `Filesort_buffer` -/

/-- `sizeof(m_record_pointers[0])`, the size of an `uchar *` on the
64-bit reference platform. -/
def ptrSize : ℕ := 8

/-- Modelled from the spec: the configured minimum Block size used as the
floor for the first block.  The constant comes from `sql_sort.h`, which
is not under `src/`; MySQL defines `MIN_SORT_MEMORY` as `32 * 1024`. -/
def MIN_SORT_MEMORY : ℕ := 32768

/-- State of a `Filesort_buffer`.  Blocks are modelled by their sizes
(`m_blocks`, in allocation order; the last entry is the current block);
record pointers by `(block index, byte offset)` pairs; the cursor
`m_next_rec_ptr` by its offset into the current block
(`m_current_block_end` is always the current block's start plus
`m_current_block_size`, so it needs no separate field; in the empty
state both pointers are null, modelled as offset 0 with block size 0).
`m_record_pointers` is a `std::vector<uchar *>`, so its reserved
capacity `recPtrsCap` is tracked separately from its contents. -/
structure Filesort_buffer where
  m_blocks : List ℕ
  m_record_pointers : List (ℕ × ℕ)
  recPtrsCap : ℕ
  m_next_rec_ptr : ℕ
  m_current_block_size : ℕ
  m_space_used_other_blocks : ℕ
  m_max_record_length : ℕ
  m_max_size_in_bytes : ℕ
  m_peak_memory_used : ℕ
deriving DecidableEq

/-- A freshly constructed `Filesort_buffer` with the given maximum record
length and memory budget: no blocks, no record pointers, zero cursor. -/
def initBuffer (max_record_length max_size_in_bytes : ℕ) : Filesort_buffer where
  m_blocks := []
  m_record_pointers := []
  recPtrsCap := 0
  m_next_rec_ptr := 0
  m_current_block_size := 0
  m_space_used_other_blocks := 0
  m_max_record_length := max_record_length
  m_max_size_in_bytes := max_size_in_bytes
  m_peak_memory_used := 0

/-- Total bytes committed to blocks: the sum of all block sizes. -/
def blocksTotalBytes (b : Filesort_buffer) : ℕ := b.m_blocks.sum

/-- `Filesort_buffer::update_peak_memory_used` (lines 431-436). -/
def update_peak_memory_used (b : Filesort_buffer) : Filesort_buffer :=
  { b with
      m_peak_memory_used :=
        max b.m_peak_memory_used
          (b.recPtrsCap * ptrSize + b.m_current_block_size +
            b.m_space_used_other_blocks) }

/-- `Filesort_buffer::allocate_sized_block` (lines 381-395): raw
allocation primitive.  `mallocOk` is the outcome of the `my_malloc`
call; on failure, returns `true` with no state change.  On success,
folds the previous current block into `m_space_used_other_blocks`,
repoints the cursor, and appends the new block. -/
def allocate_sized_block (b : Filesort_buffer) (block_size : ℕ)
    (mallocOk : Bool) : Bool × Filesort_buffer :=
  if mallocOk = false then (true, b)
  else
    (false,
     { b with
        m_space_used_other_blocks :=
          b.m_space_used_other_blocks + b.m_current_block_size
        m_current_block_size := block_size
        m_next_rec_ptr := 0
        m_blocks := b.m_blocks ++ [block_size] })

/-- `Filesort_buffer::allocate_block` (lines 307-379): the incremental
growth path (`growByOneBlock`).  `AddWithSaturate` on `size_t` is plain
addition on `ℕ`.  `shrink_to_fit` is modelled as shrinking the reserved
capacity to the vector's size (the C++ library makes this
non-binding; the source checks `capacity() < old_capacity` before
retrying, which under this model is `size < capacity`, and the retry
terminates because the capacity strictly decreased).

`allocate_block_target_size` is lines 311-353: the geometric growth
target (×1.5, floor `MIN_SORT_MEMORY` for the first block), the
remaining budget (`space_left`) after current usage and after the
conservative projection of future record-pointer capacity for
maximum-size records, and the final `min`/`max` clamp producing
`next_block_size`. -/
def allocate_block_target_size (b : Filesort_buffer) (num_rows : ℕ) : ℕ :=
  let bytes_needed := num_rows * b.m_max_record_length
  let next_block_size₀ :=
    if b.m_current_block_size = 0 then MIN_SORT_MEMORY
    else b.m_current_block_size + b.m_current_block_size / 2
  let space_used :=
    b.m_current_block_size + b.m_space_used_other_blocks +
      b.recPtrsCap * ptrSize
  let space_left :=
    if b.m_max_size_in_bytes < space_used then 0
    else b.m_max_size_in_bytes - space_used
  let min_num_rows_capacity :=
    b.m_record_pointers.length + space_left / (b.m_max_record_length + ptrSize)
  let space_left₁ :=
    if b.recPtrsCap < min_num_rows_capacity then
      space_left - (min_num_rows_capacity - b.recPtrsCap) * ptrSize
    else space_left
  min (max next_block_size₀ bytes_needed) space_left₁

/-- Lines 354-378 of `allocate_block`: if the clamped target is still
smaller than `bytes_needed`, either request the slack-reclaim retry
(`none`; only when at least 32 KiB of reserved-but-unused pointer
capacity exists and `shrink_to_fit` actually lowered the capacity,
i.e. `capacity() < old_capacity`) or fail; if the target suffices,
allocate it. -/
def allocate_block_go (b : Filesort_buffer) (num_rows : ℕ) (mallocOk : Bool) :
    Option (Bool × Filesort_buffer) :=
  let bytes_needed := num_rows * b.m_max_record_length
  let next_block_size := allocate_block_target_size b num_rows
  if next_block_size < bytes_needed then
    let excess_bytes :=
      (b.recPtrsCap - b.m_record_pointers.length) * ptrSize
    if 32768 ≤ excess_bytes then
      if b.m_record_pointers.length < b.recPtrsCap then none
      else some (true, b)
    else some (true, b)
  else some (allocate_sized_block b next_block_size mallocOk)

/-- `Filesort_buffer::allocate_block` assembled from
`allocate_block_go`.  The source retries via a recursive call
(`return allocate_block(num_rows);`) after `shrink_to_fit`; that
recursion runs at most twice, because after the shrink the capacity
equals the size, so the retry's `capacity() < old_capacity` test is
false.  The unrolling below is therefore exact; its last arm (a second
retry request) is unreachable. -/
def allocate_block (b : Filesort_buffer) (num_rows : ℕ) (mallocOk : Bool) :
    Bool × Filesort_buffer :=
  match allocate_block_go b num_rows mallocOk with
  | some r => r
  | none =>
    let b' := { b with recPtrsCap := b.m_record_pointers.length }
    match allocate_block_go b' num_rows mallocOk with
    | some r => r
    | none => (true, b')

/-- `Filesort_buffer::free_sort_buffer` (lines 397-417): releases every
block and the record pointer array's storage (the vector is replaced by
an empty one, so its capacity drops to 0), zeroing all cursor and size
state. -/
def free_sort_buffer (b : Filesort_buffer) : Filesort_buffer :=
  let b := update_peak_memory_used b
  { b with
      m_record_pointers := []
      recPtrsCap := 0
      m_blocks := []
      m_space_used_other_blocks := 0
      m_next_rec_ptr := 0
      m_current_block_size := 0 }

/-- `Filesort_buffer::reset` (lines 250-276): record the peak-memory
high-water mark, clear the record pointer array's contents (capacity is
retained by `clear()`), free every block but the last, free that too if
it is smaller than the current maximum record length, and point the
cursor at the retained block's start. -/
def reset (b : Filesort_buffer) : Filesort_buffer :=
  let b := update_peak_memory_used b
  let b := { b with m_record_pointers := [] }
  let b :=
    if 2 ≤ b.m_blocks.length then
      { b with m_blocks := b.m_blocks.drop (b.m_blocks.length - 1) }
    else b
  let b :=
    if b.m_current_block_size < b.m_max_record_length then free_sort_buffer b
    else b
  let b := if b.m_blocks.isEmpty then b else { b with m_next_rec_ptr := 0 }
  { b with m_space_used_other_blocks := 0 }

/-- `std::vector::push_back` on `m_record_pointers`: appends the pointer;
if the vector is full, its reserved capacity grows (libstdc++ doubles
it; the standard leaves the policy unspecified — the source itself notes
"It's also impossible to say how capacity() will change since this is an
implementation detail"). -/
def push_record (b : Filesort_buffer) (p : ℕ × ℕ) : Filesort_buffer :=
  { b with
      m_record_pointers := b.m_record_pointers ++ [p]
      recPtrsCap :=
        if b.m_record_pointers.length < b.recPtrsCap then b.recPtrsCap
        else max 1 (2 * b.recPtrsCap) }

/-- Modelled from the spec: `Filesort_buffer::get_next_record_pointer` is
declared in `filesort_utils.h`, which is not under `src/`.  Per the
spec, record slots are carved out of the current block by bump
allocation of `m_max_record_length` bytes, growing via
`allocate_block(1)` when the current block is exhausted; the resulting
pointer is appended to `m_record_pointers`.  Returns `none` (the
source's `nullptr`) if growth fails. -/
def get_next_record_pointer (b : Filesort_buffer) (mallocOk : Bool) :
    Option (ℕ × ℕ) × Filesort_buffer :=
  if b.m_current_block_size < b.m_next_rec_ptr + b.m_max_record_length then
    match allocate_block b 1 mallocOk with
    | (true, b') => (none, b')
    | (false, b') =>
      let ptr := (b'.m_blocks.length - 1, b'.m_next_rec_ptr)
      (some ptr,
       { push_record b' ptr with
          m_next_rec_ptr := b'.m_next_rec_ptr + b'.m_max_record_length })
  else
    let ptr := (b.m_blocks.length - 1, b.m_next_rec_ptr)
    (some ptr,
     { push_record b ptr with
        m_next_rec_ptr := b.m_next_rec_ptr + b.m_max_record_length })

/-- The `while (m_record_pointers.size() < num_records)` carving loop of
`preallocate_records` (lines 299-303), as countdown recursion: each
successful `get_next_record_pointer` grows the pointer array by exactly
one, so the loop runs `num_records - size` times; a `nullptr` result
(allocation failure, a debug-assert condition in the source) stops. -/
def carve_records (b : Filesort_buffer) : ℕ → Bool → Filesort_buffer
  | 0, _ => b
  | k + 1, mallocOk =>
    let r := get_next_record_pointer b mallocOk
    if r.1.isSome then carve_records r.2 k mallocOk else r.2

/-- `Filesort_buffer::preallocate_records` (lines 278-305): exact-fit
fast path (`preallocate`).  `reserve(num_records)` raises the reserved
capacity to `num_records` if it is below. -/
def preallocate_records (b : Filesort_buffer) (num_records : ℕ)
    (mallocOk : Bool) : Bool × Filesort_buffer :=
  let b := reset b
  let bytes_needed := num_records * b.m_max_record_length
  if b.m_max_size_in_bytes < bytes_needed + num_records * ptrSize then
    (true, b)
  else
    let step :=
      if b.m_current_block_size < b.m_next_rec_ptr + bytes_needed then
        match allocate_sized_block (free_sort_buffer b) bytes_needed mallocOk with
        | (true, b') => (true, b')
        | (false, b') =>
          (false, { b' with recPtrsCap := max b'.recPtrsCap num_records })
      else (false, b)
    if step.1 then (true, step.2)
    else
      (false,
       carve_records step.2 (num_records - step.2.m_record_pointers.length)
         mallocOk)

/-! ### Claim C5 -/

/-- Claim C5: for every `numElements`, `elemSize`, cost table, and
`numBuffers >= 1`, `mergeCost` equals
`2 * ioBlockReadCost(numElements*elemSize / IO_BLOCK_SIZE)
 + keyCompareCost(numElements * log2(numBuffers))`. -/
theorem c5_get_merge_cost_formula (num_elements num_buffers elem_size : ℕ)
    (io kcc : ℝ → ℝ) (hb : 1 ≤ num_buffers) :
    get_merge_cost num_elements num_buffers elem_size io kcc =
      2 * io (((num_elements * elem_size : ℕ) : ℝ) / (IO_SIZE : ℝ)) +
        kcc ((num_elements : ℝ) * Real.logb 2 (num_buffers : ℝ)) := rfl

/-- Witness for C5 at `numElements = 3`, `numBuffers = 1`,
`elemSize = 2`, the identity cost table. -/
theorem c5_witness :
    get_merge_cost 3 1 2 (fun x => x) (fun x => x) =
      2 * (((3 * 2 : ℕ) : ℝ) / (IO_SIZE : ℝ)) +
        ((3 : ℝ) * Real.logb 2 ((1 : ℕ) : ℝ)) :=
  c5_get_merge_cost_formula 3 1 2 (fun x => x) (fun x => x) (by norm_num)

/-! ### Claim C7 -/

/-- Claim C7: for every call of `sort_buffer` with `count <= 1` or
`max_compare_length == 0`, the record pointer array is left unchanged
(and nothing else of the arena is touched), and the algorithm recorded
in the sort parameters is `FILESORT_ALG_NONE`. -/
theorem c7_trivial_count_noop {α : Type} (param : Sort_param)
    (varlenLt : α → α → Bool) (key : α → List ℕ) (rp : List α) (count : ℕ)
    (h : count ≤ 1 ∨ param.max_compare_length = 0) :
    sort_buffer param varlenLt key rp count =
      ({ param with m_sort_algorithm := .FILESORT_ALG_NONE }, rp) := by
  unfold sort_buffer
  rcases h with h | h
  · simp [h]
  · by_cases hc : count ≤ 1 <;> simp [h, hc]

/-- Witness for C7: a two-record array with `count = 1` is returned
byte-for-byte unchanged with algorithm `FILESORT_ALG_NONE`. -/
theorem c7_witness :
    sort_buffer
        { m_force_stable_sort := false, m_sort_algorithm := .FILESORT_ALG_STD_SORT,
          max_compare_length := 4, ref_length := 0, using_varlen_keys := false,
          using_addon_fields := false, use_hash := false }
        (fun _ _ => false) (fun s => s) [[2, 1], [1, 2]] 1 =
      ({ m_force_stable_sort := false, m_sort_algorithm := .FILESORT_ALG_NONE,
         max_compare_length := 4, ref_length := 0, using_varlen_keys := false,
         using_addon_fields := false, use_hash := false },
       [[2, 1], [1, 2]]) :=
  c7_trivial_count_noop _ _ _ _ _ (Or.inl (by norm_num))

/-! ### Claim C10 -/

/-- Claim C10: the byte comparators are only selected within their safe
preconditions.  Under the source's documented precondition
(`DBUG_ASSERT(compare_len > param->ref_length)` for the
stable/no-addon case), every selection of the byte-by-byte comparator
`my_mem_compare` has compare length at least 1 (in particular never 0,
thanks to the `max_compare_length() == 0` early return), and every
selection of the unrolled `my_mem_compare_longkey` has compare length
at least 10, so its accesses to bytes 0..3 and to the remaining
`len - 4` bytes from offset 4 stay within the compared range
(`3 < len` and `4 + (len - 4) = len`). -/
theorem c10_comparator_selection_safe (param : Sort_param) (count : ℕ)
    (hguard : param.using_varlen_keys = false →
      param.m_force_stable_sort = true → param.using_addon_fields = false →
      param.ref_length < param.max_compare_length) :
    ∀ len,
      ((sort_buffer_choice param count).1 = some (.memChoice len) → 1 ≤ len) ∧
      ((sort_buffer_choice param count).1 = some (.longkeyChoice len) →
        10 ≤ len ∧ 3 < len ∧ 4 + (len - 4) = len) := by
  intro len
  unfold sort_buffer_choice
  by_cases h1 : count ≤ 1
  · simp [h1]
  by_cases h2 : param.max_compare_length = 0
  · simp [h1, h2]
  by_cases h3 : param.using_varlen_keys = true
  · simp [h1, h2, h3]
  by_cases h4 : count ≤ 100 ∧ param.m_force_stable_sort = false
  · by_cases h5 : param.max_compare_length < 10 <;>
      simp [h1, h2, h3, h4, h5] <;> omega
  · by_cases h6 : param.m_force_stable_sort = true ∧
        param.using_addon_fields = false
    · have hlt := hguard (by simpa using h3) h6.1 h6.2
      by_cases h7 : param.max_compare_length - param.ref_length < 10 <;>
        simp [h1, h2, h3, h4, h6, h7] <;> omega
    · by_cases h7 : param.max_compare_length < 10 <;>
        simp [h1, h2, h3, h4, h6, h7] <;> omega

/-- Witness for C10 at a concrete parameter set (fixed 5-byte keys,
non-stable, `count = 3`): the selected comparator is the byte-by-byte
one with length 5 ≥ 1. -/
theorem c10_witness :
    ((sort_buffer_choice
        { m_force_stable_sort := false, m_sort_algorithm := .FILESORT_ALG_NONE,
          max_compare_length := 5, ref_length := 0, using_varlen_keys := false,
          using_addon_fields := false, use_hash := false } 3).1 =
        some (.memChoice 5) → 1 ≤ 5) ∧
    ((sort_buffer_choice
        { m_force_stable_sort := false, m_sort_algorithm := .FILESORT_ALG_NONE,
          max_compare_length := 5, ref_length := 0, using_varlen_keys := false,
          using_addon_fields := false, use_hash := false } 3).1 =
        some (.longkeyChoice 5) → 10 ≤ 5 ∧ 3 < 5 ∧ 4 + (5 - 4) = 5) :=
  c10_comparator_selection_safe _ 3 (fun _ _ _ => by norm_num) 5

/-! ### Claim C2 -/

/-- A failing `allocate_sized_block` (host allocation failure) has no
side effects. -/
theorem allocate_sized_block_fail (b : Filesort_buffer) (s : ℕ) (ok : Bool)
    (h : (allocate_sized_block b s ok).1 = true) :
    (allocate_sized_block b s ok).2 = b := by
  cases ok <;> simp [allocate_sized_block] at h ⊢

/-- If one pass of `allocate_block` returns failure, the state is
unchanged. -/
theorem allocate_block_go_fail (b : Filesort_buffer) (n : ℕ) (ok : Bool)
    (r : Filesort_buffer)
    (h : allocate_block_go b n ok = some (true, r)) : r = b := by
  unfold allocate_block_go at h
  dsimp only at h
  split at h
  · split at h
    · split at h
      · exact absurd h (by simp)
      · simp only [Option.some.injEq, Prod.mk.injEq] at h
        exact h.2.symm
    · simp only [Option.some.injEq, Prod.mk.injEq] at h
      exact h.2.symm
  · simp only [Option.some.injEq] at h
    have h1 : (allocate_sized_block b (allocate_block_target_size b n) ok).1
        = true := by
      rw [h]
    have h2 := allocate_sized_block_fail b _ ok h1
    rw [h] at h2
    exact h2

/-- A pass of `allocate_block` requests the slack-reclaim retry only
when the reserved capacity strictly exceeds the used size. -/
theorem allocate_block_go_none (b : Filesort_buffer) (n : ℕ) (ok : Bool)
    (h : allocate_block_go b n ok = none) :
    b.m_record_pointers.length < b.recPtrsCap := by
  unfold allocate_block_go at h
  dsimp only at h
  split at h
  · split at h
    · split at h
      · assumption
      · exact absurd h (by simp)
    · exact absurd h (by simp)
  · exact absurd h (by simp)

/-- Claim C2 counterexample: a failing `allocate_block` call can change
observable arena state.  Concrete input: 4096 reserved but unused
record-pointer slots (32 KiB of slack, e.g. left behind by a
`preallocate_records(4096)` whose next use was reset), one 4096-byte
block, budget 40960, `num_rows = 40960` with 1-byte records.  The call
fails — 40960 bytes can never fit — but the slack-reclaim retry has
already shrunk the reserved capacity from 4096 to 0, so the state
after the failed call differs from the state before it. -/
theorem c2_counterexample :
    (allocate_block
        { m_blocks := [4096], m_record_pointers := [], recPtrsCap := 4096,
          m_next_rec_ptr := 0, m_current_block_size := 4096,
          m_space_used_other_blocks := 0, m_max_record_length := 1,
          m_max_size_in_bytes := 40960, m_peak_memory_used := 0 }
        40960 true).1 = true ∧
    (allocate_block
        { m_blocks := [4096], m_record_pointers := [], recPtrsCap := 4096,
          m_next_rec_ptr := 0, m_current_block_size := 4096,
          m_space_used_other_blocks := 0, m_max_record_length := 1,
          m_max_size_in_bytes := 40960, m_peak_memory_used := 0 }
        40960 true).2.recPtrsCap = 0 ∧
    (0 : ℕ) ≠ 4096 := by
  refine ⟨by decide, by decide, by decide⟩

/-- Claim C2, amended: whenever `allocate_block` (growByOneBlock)
returns failure, no block has been allocated and the arena is
unchanged — except that the record-pointer array's reserved capacity
may have been reduced to its used size by the one `shrink_to_fit`
slack-reclaim retry; blocks, cursor, committed-size counters and the
pointer array's contents are never touched by a failing call. -/
theorem c2_amended_failed_grow_frame (b : Filesort_buffer) (n : ℕ) (ok : Bool)
    (hfail : (allocate_block b n ok).1 = true) :
    (allocate_block b n ok).2 = b ∨
      ((allocate_block b n ok).2 =
          { b with recPtrsCap := b.m_record_pointers.length } ∧
        b.m_record_pointers.length < b.recPtrsCap) := by
  rcases hgo : allocate_block_go b n ok with _ | ⟨f, s⟩
  · have hlt := allocate_block_go_none b n ok hgo
    rcases hgo' : allocate_block_go
        { b with recPtrsCap := b.m_record_pointers.length } n ok with _ | ⟨f', s'⟩
    · have hab : allocate_block b n ok =
          (true, { b with recPtrsCap := b.m_record_pointers.length }) := by
        unfold allocate_block
        rw [hgo]
        dsimp only
        rw [hgo']
      rw [hab]
      exact Or.inr ⟨rfl, hlt⟩
    · have hab : allocate_block b n ok = (f', s') := by
        unfold allocate_block
        rw [hgo]
        dsimp only
        rw [hgo']
      rw [hab] at hfail ⊢
      cases f'
      · exact Bool.noConfusion hfail
      · exact Or.inr ⟨allocate_block_go_fail _ n ok s' hgo', hlt⟩
  · have hab : allocate_block b n ok = (f, s) := by
      unfold allocate_block
      rw [hgo]
    rw [hab] at hfail ⊢
    cases f
    · exact Bool.noConfusion hfail
    · exact Or.inl (allocate_block_go_fail b n ok s hgo)

/-! ### Claim C1 -/

/-- The budget invariant of claim C1, together with the bookkeeping fact
that `m_space_used_other_blocks + m_current_block_size` is exactly the
total of all block sizes (which every arena operation maintains). -/
def BudgetInv (b : Filesort_buffer) : Prop :=
  blocksTotalBytes b =
      b.m_space_used_other_blocks + b.m_current_block_size ∧
  blocksTotalBytes b + b.recPtrsCap * ptrSize ≤ b.m_max_size_in_bytes

/-- The clamped target size never exceeds the remaining budget: current
usage plus the target stays within `m_max_size_in_bytes` (or usage was
already above it and the target is 0). -/
theorem allocate_block_target_size_le (b : Filesort_buffer) (n : ℕ) :
    b.m_current_block_size + b.m_space_used_other_blocks +
        b.recPtrsCap * ptrSize + allocate_block_target_size b n ≤
      max b.m_max_size_in_bytes
        (b.m_current_block_size + b.m_space_used_other_blocks +
          b.recPtrsCap * ptrSize) := by
  have htarget : allocate_block_target_size b n ≤
      (if b.m_max_size_in_bytes <
          b.m_current_block_size + b.m_space_used_other_blocks +
            b.recPtrsCap * ptrSize then 0
        else b.m_max_size_in_bytes -
          (b.m_current_block_size + b.m_space_used_other_blocks +
            b.recPtrsCap * ptrSize)) := by
    unfold allocate_block_target_size
    dsimp only
    refine le_trans (Nat.min_le_right _ _) ?_
    split_ifs <;> first | exact Nat.sub_le _ _ | exact le_refl _
  split_ifs at htarget <;> omega

/-- When one pass of `allocate_block` succeeds, it succeeded through
`allocate_sized_block` at the clamped target size, and the host
allocation worked. -/
theorem allocate_block_go_success (b : Filesort_buffer) (n : ℕ) (ok : Bool)
    (r : Filesort_buffer)
    (h : allocate_block_go b n ok = some (false, r)) :
    ok = true ∧
      r = (allocate_sized_block b (allocate_block_target_size b n) true).2 := by
  unfold allocate_block_go at h
  dsimp only at h
  split at h
  · split at h
    · split at h
      · exact absurd h (by simp)
      · exact absurd h (by simp)
    · exact absurd h (by simp)
  · cases ok
    · exact absurd h (by simp [allocate_sized_block])
    · simp only [Option.some.injEq] at h
      refine ⟨rfl, ?_⟩
      have := congrArg Prod.snd h
      exact this.symm

/-- Effect of a successful `allocate_sized_block`. -/
theorem allocate_sized_block_ok (b : Filesort_buffer) (s : ℕ) :
    (allocate_sized_block b s true).2 =
      { b with
          m_space_used_other_blocks :=
            b.m_space_used_other_blocks + b.m_current_block_size
          m_current_block_size := s
          m_next_rec_ptr := 0
          m_blocks := b.m_blocks ++ [s] } := by
  simp [allocate_sized_block]

/-- One pass of `allocate_block` preserves the budget invariant. -/
theorem go_preserves_budget (b : Filesort_buffer) (n : ℕ) (ok : Bool)
    (r : Bool × Filesort_buffer) (hgo : allocate_block_go b n ok = some r)
    (hP : BudgetInv b) : BudgetInv r.2 := by
  obtain ⟨f, s⟩ := r
  cases f
  · obtain ⟨hok, hs⟩ := allocate_block_go_success b n ok s hgo
    subst hs
    rw [allocate_sized_block_ok]
    obtain ⟨h1, h2⟩ := hP
    have h3 := allocate_block_target_size_le b n
    constructor
    · simp [blocksTotalBytes] at h1 ⊢
      omega
    · simp [blocksTotalBytes] at h1 h2 ⊢
      omega
  · have := allocate_block_go_fail b n ok s hgo
    subst this
    exact hP

/-- `allocate_block` (growByOneBlock) preserves the budget invariant:
a successful call allocates at most the remaining budget (the target
computation already accounts for current blocks and reserved pointer
capacity), and a failed call at most shrinks the reserved capacity. -/
theorem allocate_block_preserves_budget (b : Filesort_buffer) (n : ℕ)
    (ok : Bool) (hP : BudgetInv b) :
    BudgetInv (allocate_block b n ok).2 := by
  rcases hgo : allocate_block_go b n ok with _ | r
  · have hlt := allocate_block_go_none b n ok hgo
    have hP' : BudgetInv
        { b with recPtrsCap := b.m_record_pointers.length } := by
      obtain ⟨h1, h2⟩ := hP
      refine ⟨h1, ?_⟩
      simp only [blocksTotalBytes] at h1 h2 ⊢
      have : b.m_record_pointers.length * ptrSize ≤ b.recPtrsCap * ptrSize :=
        Nat.mul_le_mul_right _ (le_of_lt hlt)
      omega
    rcases hgo' : allocate_block_go
        { b with recPtrsCap := b.m_record_pointers.length } n ok with _ | r'
    · have hab : allocate_block b n ok =
          (true, { b with recPtrsCap := b.m_record_pointers.length }) := by
        unfold allocate_block
        rw [hgo]
        dsimp only
        rw [hgo']
      rw [hab]
      exact hP'
    · have hab : allocate_block b n ok = r' := by
        unfold allocate_block
        rw [hgo]
        dsimp only
        rw [hgo']
      rw [hab]
      exact go_preserves_budget _ n ok r' hgo' hP'
  · have hab : allocate_block b n ok = r := by
      unfold allocate_block
      rw [hgo]
    rw [hab]
    exact go_preserves_budget b n ok r hgo hP

/-- Arena states reachable from a freshly constructed (empty) arena by
any sequence of `allocate_block` (growByOneBlock) calls, with any row
counts and any host-allocation outcomes. -/
inductive GrowReachable (max_record_length max_size_in_bytes : ℕ) :
    Filesort_buffer → Prop where
  | init : GrowReachable max_record_length max_size_in_bytes
      (initBuffer max_record_length max_size_in_bytes)
  | grow (b : Filesort_buffer) (num_rows : ℕ) (mallocOk : Bool) :
      GrowReachable max_record_length max_size_in_bytes b →
      GrowReachable max_record_length max_size_in_bytes
        (allocate_block b num_rows mallocOk).2

set_option maxRecDepth 100000 in
/-- Claim C1 counterexample: the budget bound fails for sequences that
include `preallocate_records` and `allocate_block` together.  Budget
1800 bytes, 1-byte records: `preallocate(100)` reserves 100 pointer
slots and a 100-byte block; `preallocate(100000)` fails its budget
check but its initial `reset()` has cleared the pointer array (its
capacity of 100 is retained); `growByOneBlock(900)` then allocates a
900-byte block — the size computation projects future pointer needs
from the array's current capacity; finally `preallocate(200)` passes
its budget check (`200*1 + 200*8 = 1800 ≤ 1800`), keeps the retained
900-byte block because the 200 bytes fit inside it, and carves 200
pointers, growing the pointer array's capacity to 200.  The arena now
commits `900 + 200*8 = 2500 > 1800` bytes, and the offending call
returned success. -/
theorem c1_counterexample :
    (preallocate_records
        (allocate_block
            (preallocate_records
                (preallocate_records (initBuffer 1 1800) 100 true).2
                100000 true).2
            900 true).2
        200 true).1 = false ∧
    1800 <
      blocksTotalBytes
          (preallocate_records
              (allocate_block
                  (preallocate_records
                      (preallocate_records (initBuffer 1 1800) 100 true).2
                      100000 true).2
                  900 true).2
              200 true).2 +
        (preallocate_records
            (allocate_block
                (preallocate_records
                    (preallocate_records (initBuffer 1 1800) 100 true).2
                    100000 true).2
                900 true).2
            200 true).2.recPtrsCap * ptrSize ∧
    (preallocate_records
        (allocate_block
            (preallocate_records
                (preallocate_records (initBuffer 1 1800) 100 true).2
                100000 true).2
            900 true).2
        200 true).2.m_max_size_in_bytes = 1800 := by
  refine ⟨by decide, by decide, by decide⟩

/-- Claim C1, amended: after any sequence of `allocate_block`
(growByOneBlock) calls starting from an empty arena, the bytes
committed to blocks plus the record-pointer array's reserved capacity
times the pointer size never exceed the memory budget — calls that
cannot fit fail without breaking the bound.  (`preallocate_records`'s
budget check ignores the retained block, and `allocate_sized_block` is
a raw primitive with no budget check at all, so sequences involving
them can exceed the budget, as the counterexample shows.) -/
theorem c1_amended_grow_budget_invariant
    (max_record_length max_size_in_bytes : ℕ) (b : Filesort_buffer)
    (h : GrowReachable max_record_length max_size_in_bytes b) :
    blocksTotalBytes b + b.recPtrsCap * ptrSize ≤ b.m_max_size_in_bytes := by
  have hinv : BudgetInv b := by
    induction h with
    | init => exact ⟨rfl, by simp [blocksTotalBytes, initBuffer]⟩
    | grow b' n ok _ ih => exact allocate_block_preserves_budget b' n ok ih
  exact hinv.2

/-- Witness for the amended C1 at the empty arena (budget 1800,
record length 1), which is reachable by the empty sequence. -/
theorem c1_witness :
    blocksTotalBytes (initBuffer 1 1800) +
        (initBuffer 1 1800).recPtrsCap * ptrSize ≤
      (initBuffer 1 1800).m_max_size_in_bytes :=
  c1_amended_grow_budget_invariant 1 1800 (initBuffer 1 1800)
    GrowReachable.init

/-- Witness for the amended C2 at a concrete input: growing an arena
with zero budget fails and, having no slack to reclaim, leaves the
arena exactly as it was. -/
theorem c2_witness :
    (allocate_block (initBuffer 1 0) 1 true).2 = initBuffer 1 0 ∨
      ((allocate_block (initBuffer 1 0) 1 true).2 =
          { initBuffer 1 0 with
              recPtrsCap := (initBuffer 1 0).m_record_pointers.length } ∧
        (initBuffer 1 0).m_record_pointers.length <
          (initBuffer 1 0).recPtrsCap) :=
  c2_amended_failed_grow_frame (initBuffer 1 0) 1 true (by decide)

/-! ### Claim C9 -/

/-- Shape of `reset` when the retained block is too small for the
current maximum record length (or no usable block exists): everything
is freed. -/
theorem reset_of_freed (b : Filesort_buffer)
    (h : b.m_current_block_size < b.m_max_record_length) :
    reset b =
      { m_blocks := [], m_record_pointers := [], recPtrsCap := 0,
        m_next_rec_ptr := 0, m_current_block_size := 0,
        m_space_used_other_blocks := 0,
        m_max_record_length := b.m_max_record_length,
        m_max_size_in_bytes := b.m_max_size_in_bytes,
        m_peak_memory_used :=
          max b.m_peak_memory_used
            (b.recPtrsCap * ptrSize + b.m_current_block_size +
              b.m_space_used_other_blocks) } := by
  unfold reset free_sort_buffer update_peak_memory_used
  dsimp only
  split_ifs with h1 <;> simp [max_assoc, max_self]

/-- Shape of `reset` on a blockless arena whose (zero-sized) current
block is not smaller than the maximum record length (only possible
when that length is 0): contents cleared, capacity and cursor kept. -/
theorem reset_of_kept_noblocks (b : Filesort_buffer)
    (h : ¬ b.m_current_block_size < b.m_max_record_length)
    (hb : b.m_blocks = []) :
    reset b =
      { b with
          m_record_pointers := []
          m_space_used_other_blocks := 0
          m_peak_memory_used :=
            max b.m_peak_memory_used
              (b.recPtrsCap * ptrSize + b.m_current_block_size +
                b.m_space_used_other_blocks) } := by
  unfold reset free_sort_buffer update_peak_memory_used
  dsimp only
  rw [hb]
  simp [h]

/-- Shape of `reset` when the last block is retained: record pointers
cleared (capacity kept), all blocks but the last freed, cursor at the
retained block's start. -/
theorem reset_of_kept (b : Filesort_buffer)
    (h : ¬ b.m_current_block_size < b.m_max_record_length)
    (hb : b.m_blocks ≠ []) :
    reset b =
      { b with
          m_record_pointers := []
          m_blocks := b.m_blocks.drop (b.m_blocks.length - 1)
          m_next_rec_ptr := 0
          m_space_used_other_blocks := 0
          m_peak_memory_used :=
            max b.m_peak_memory_used
              (b.recPtrsCap * ptrSize + b.m_current_block_size +
                b.m_space_used_other_blocks) } := by
  unfold reset free_sort_buffer update_peak_memory_used
  dsimp only
  have hlen : 1 ≤ b.m_blocks.length := by
    cases hbb : b.m_blocks with
    | nil => exact absurd hbb hb
    | cons x xs => simp
  by_cases h2 : 2 ≤ b.m_blocks.length
  · have hem : (b.m_blocks.drop (b.m_blocks.length - 1)).isEmpty = false := by
      rw [List.isEmpty_eq_false_iff_exists_mem]
      have : (b.m_blocks.drop (b.m_blocks.length - 1)).length = 1 := by
        rw [List.length_drop]
        omega
      cases hd : b.m_blocks.drop (b.m_blocks.length - 1) with
      | nil => rw [hd] at this; simp at this
      | cons y ys => exact ⟨y, by simp⟩
    simp [h2, h, hem]
  · have hle : b.m_blocks.length = 1 := by omega
    have hdrop : b.m_blocks.drop (b.m_blocks.length - 1) = b.m_blocks := by
      rw [hle]
      simp
    have hem : b.m_blocks.isEmpty = false := by
      cases hbb : b.m_blocks with
      | nil => exact absurd hbb hb
      | cons y ys => simp
    simp [h2, h, hem, hdrop]

/-- Claim C9: `reset` is idempotent — for every arena state, calling it
twice consecutively yields the same state (same retained blocks, cursor,
committed-size counters, record-pointer array, and peak counter) as
calling it once. -/
theorem c9_reset_idempotent (b : Filesort_buffer) :
    reset (reset b) = reset b := by
  by_cases h : b.m_current_block_size < b.m_max_record_length
  · rw [reset_of_freed b h]
    have h0 : (0:ℕ) < b.m_max_record_length := by omega
    rw [reset_of_freed _ (by simpa using h0)]
    simp
  · by_cases hb : b.m_blocks = []
    · rw [reset_of_kept_noblocks b h hb]
      rw [reset_of_kept_noblocks _ (by simpa using h) (by simpa using hb)]
      simp only
      congr 1
      · apply max_eq_left
        refine le_trans ?_ (le_max_right _ _)
        omega
    · rw [reset_of_kept b h hb]
      have hne : (b.m_blocks.drop (b.m_blocks.length - 1)) ≠ [] := by
        have hlen : 1 ≤ b.m_blocks.length := by
          cases hbb : b.m_blocks with
          | nil => exact absurd hbb hb
          | cons x xs => simp
        intro hcon
        have := congrArg List.length hcon
        rw [List.length_drop] at this
        simp at this
        omega
      rw [reset_of_kept _ (by simpa using h) (by simpa using hne)]
      simp only
      congr 1
      · have : (b.m_blocks.drop (b.m_blocks.length - 1)).length = 1 := by
          rw [List.length_drop]
          have hlen : 1 ≤ b.m_blocks.length := by
            cases hbb : b.m_blocks with
            | nil => exact absurd hbb hb
            | cons x xs => simp
          omega
        rw [this]
        simp
      · apply max_eq_left
        refine le_trans ?_ (le_max_right _ _)
        omega

/-! ### Claim C8 -/


/-- Behaviour of the carving loop when the `count` requested slots all
fit in the current block: it appends exactly `count` record pointers,
at consecutive `m_max_record_length`-spaced offsets of the current
(last) block, advancing the cursor and allocating nothing. -/
theorem carve_records_spec : ∀ (k : ℕ) (b : Filesort_buffer) (ok : Bool),
    b.m_next_rec_ptr + k * b.m_max_record_length ≤ b.m_current_block_size →
    (carve_records b k ok).m_record_pointers =
        b.m_record_pointers ++ (List.range k).map
          (fun i => (b.m_blocks.length - 1,
            b.m_next_rec_ptr + i * b.m_max_record_length)) ∧
    (carve_records b k ok).m_blocks = b.m_blocks ∧
    (carve_records b k ok).m_next_rec_ptr =
        b.m_next_rec_ptr + k * b.m_max_record_length ∧
    (carve_records b k ok).m_current_block_size = b.m_current_block_size ∧
    (carve_records b k ok).m_max_record_length = b.m_max_record_length ∧
    (carve_records b k ok).m_max_size_in_bytes = b.m_max_size_in_bytes := by
  intro k
  induction k with
  | zero => intro b ok _; simp [carve_records]
  | succ k ih =>
    intro b ok hfit
    have hcond : ¬ b.m_current_block_size <
        b.m_next_rec_ptr + b.m_max_record_length := by
      have : b.m_next_rec_ptr + b.m_max_record_length ≤
          b.m_next_rec_ptr + (k + 1) * b.m_max_record_length := by
        have : b.m_max_record_length ≤ (k + 1) * b.m_max_record_length := by
          calc b.m_max_record_length = 1 * b.m_max_record_length := by ring
          _ ≤ (k + 1) * b.m_max_record_length :=
            Nat.mul_le_mul_right _ (by omega)
        omega
      omega
    have hstep : carve_records b (k + 1) ok =
        carve_records
          { push_record b (b.m_blocks.length - 1, b.m_next_rec_ptr) with
              m_next_rec_ptr := b.m_next_rec_ptr + b.m_max_record_length }
          k ok := by
      conv_lhs => rw [carve_records]
      rw [get_next_record_pointer]
      rw [if_neg hcond]
      simp
    rw [hstep]
    set b' : Filesort_buffer :=
      { push_record b (b.m_blocks.length - 1, b.m_next_rec_ptr) with
          m_next_rec_ptr := b.m_next_rec_ptr + b.m_max_record_length } with hb'
    have hfit' : b'.m_next_rec_ptr + k * b'.m_max_record_length ≤
        b'.m_current_block_size := by
      simp only [hb', push_record]
      have : b.m_next_rec_ptr + b.m_max_record_length +
          k * b.m_max_record_length =
          b.m_next_rec_ptr + (k + 1) * b.m_max_record_length := by ring
      omega
    obtain ⟨h1, h2, h3, h4, h5, h6⟩ := ih b' ok hfit'
    have hbl : b'.m_blocks = b.m_blocks := by simp [hb', push_record]
    have hrp : b'.m_record_pointers =
        b.m_record_pointers ++ [(b.m_blocks.length - 1, b.m_next_rec_ptr)] := by
      simp [hb', push_record]
    refine ⟨?_, by rw [h2, hbl], ?_, by rw [h4]; simp [hb', push_record],
      by rw [h5]; simp [hb', push_record], by rw [h6]; simp [hb', push_record]⟩
    · rw [h1, hrp, hbl]
      rw [List.append_assoc]
      congr 1
      rw [List.range_succ_eq_map]
      simp only [List.map_cons, List.map_map]
      rw [List.singleton_append]
      congr 1
      · simp
      · apply List.map_congr_left
        intro a ha
        simp only [push_record, Function.comp_apply, Nat.succ_eq_add_one,
          Prod.mk.injEq]
        exact ⟨trivial, by ring⟩
    · rw [h3]
      simp only [hb', push_record]
      ring



/-- `reset` always clears the record pointers, keeps at most one block,
and preserves the configured maximum record length and budget. -/
theorem reset_fields (b : Filesort_buffer) :
    (reset b).m_record_pointers = [] ∧
    (reset b).m_blocks.length ≤ 1 ∧
    (reset b).m_max_record_length = b.m_max_record_length ∧
    (reset b).m_max_size_in_bytes = b.m_max_size_in_bytes := by
  by_cases h : b.m_current_block_size < b.m_max_record_length
  · rw [reset_of_freed b h]
    simp
  · by_cases hb : b.m_blocks = []
    · rw [reset_of_kept_noblocks b h hb]
      simp [hb]
    · rw [reset_of_kept b h hb]
      refine ⟨rfl, ?_, rfl, rfl⟩
      simp only [List.length_drop]
      omega

/-- After `reset`, the bump cursor is at the retained block's start
(for well-formed states whose empty-block form has a zero-sized current
block, and a positive maximum record length). -/
theorem reset_next_rec (b : Filesort_buffer)
    (hL : 1 ≤ b.m_max_record_length)
    (hwf : b.m_blocks = [] → b.m_current_block_size = 0) :
    (reset b).m_next_rec_ptr = 0 := by
  by_cases h : b.m_current_block_size < b.m_max_record_length
  · rw [reset_of_freed b h]
  · by_cases hb : b.m_blocks = []
    · have := hwf hb
      omega
    · rw [reset_of_kept b h hb]

/-- Core of claim C8: when `n` records and `n` pointers fit the budget,
`preallocate_records(n)` succeeds and the pointer array consists of
exactly the `n` consecutively carved slots of block 0 — slot `i` at
offset `i * m_max_record_length` — with at most the single exact-fit
block allocated. -/
theorem preallocate_exact_fit_spec (b : Filesort_buffer) (n : ℕ)
    (hL : 1 ≤ b.m_max_record_length)
    (hwf : b.m_blocks = [] → b.m_current_block_size = 0)
    (hbudget : n * b.m_max_record_length + n * ptrSize ≤ b.m_max_size_in_bytes) :
    (preallocate_records b n true).1 = false ∧
    (preallocate_records b n true).2.m_record_pointers =
      (List.range n).map (fun i => ((0 : ℕ), i * b.m_max_record_length)) ∧
    (preallocate_records b n true).2.m_blocks.length ≤ 1 := by
  obtain ⟨hr, hlen1, hLeq, hBeq⟩ := reset_fields b
  have hnr := reset_next_rec b hL hwf
  unfold preallocate_records
  dsimp only
  rw [if_neg (by rw [hLeq, hBeq]; omega)]
  by_cases hfits : (reset b).m_current_block_size <
      (reset b).m_next_rec_ptr + n * (reset b).m_max_record_length
  · -- exact-fit reallocation path
    rw [if_pos hfits]
    have hasb :
        allocate_sized_block (free_sort_buffer (reset b))
          (n * (reset b).m_max_record_length) true =
        (false,
         { m_blocks := [n * b.m_max_record_length], m_record_pointers := [],
           recPtrsCap := 0, m_next_rec_ptr := 0,
           m_current_block_size := n * b.m_max_record_length,
           m_space_used_other_blocks := 0,
           m_max_record_length := b.m_max_record_length,
           m_max_size_in_bytes := b.m_max_size_in_bytes,
           m_peak_memory_used :=
             (free_sort_buffer (reset b)).m_peak_memory_used }) := by
      simp [allocate_sized_block, free_sort_buffer, update_peak_memory_used,
        hLeq, hBeq]
    rw [hasb]
    dsimp only
    rw [if_neg (by simp)]
    have hcap : max (0 : ℕ) n = n := Nat.max_eq_right (Nat.zero_le n)
    rw [hcap]
    have hcarve := carve_records_spec n
      { m_blocks := [n * b.m_max_record_length], m_record_pointers := [],
        recPtrsCap := n, m_next_rec_ptr := 0,
        m_current_block_size := n * b.m_max_record_length,
        m_space_used_other_blocks := 0,
        m_max_record_length := b.m_max_record_length,
        m_max_size_in_bytes := b.m_max_size_in_bytes,
        m_peak_memory_used :=
          (free_sort_buffer (reset b)).m_peak_memory_used } true (by simp)
    obtain ⟨hc1, hc2, _, _, _, _⟩ := hcarve
    refine ⟨rfl, ?_, ?_⟩
    · rw [show (n - ([] : List (ℕ × ℕ)).length) = n by simp]
      rw [hc1]
      simp
    · rw [show (n - ([] : List (ℕ × ℕ)).length) = n by simp]
      rw [hc2]
      simp
  · -- the retained block already fits the records
    rw [if_neg hfits]
    dsimp only
    rw [if_neg (by simp : ¬(false = true))]
    have hfit2 : (reset b).m_next_rec_ptr +
        (n - (reset b).m_record_pointers.length) *
          (reset b).m_max_record_length ≤
        (reset b).m_current_block_size := by
      rw [hr]
      simp only [List.length_nil, Nat.sub_zero]
      omega
    have hcarve := carve_records_spec
      (n - (reset b).m_record_pointers.length) (reset b) true hfit2
    obtain ⟨hc1, hc2, _, _, _, _⟩ := hcarve
    refine ⟨rfl, ?_, ?_⟩
    · rw [hc1, hr]
      simp only [List.length_nil, Nat.sub_zero, List.nil_append]
      apply List.map_congr_left
      intro i _
      rw [hnr, hLeq]
      have : (reset b).m_blocks.length - 1 = 0 := by omega
      rw [this]
      simp
    · rw [hc2]
      exact hlen1



/-- Claim C8: for every `n` with
`n*maxRecordLength + n*pointerSize <= budget` (host allocation
succeeding, positive record length, and an arena whose blockless form
has a zero-sized current block — true of every state the arena's own
operations produce), `preallocate(n)` returns success; the `n` slots
are carved by bump allocation with no block allocation beyond the
single exact-fit block, and they are distinct and pairwise
non-overlapping. -/
theorem c8_preallocate_exact_fit (b : Filesort_buffer) (n : ℕ)
    (hL : 1 ≤ b.m_max_record_length)
    (hwf : b.m_blocks = [] → b.m_current_block_size = 0)
    (hbudget : n * b.m_max_record_length + n * ptrSize ≤ b.m_max_size_in_bytes) :
    (preallocate_records b n true).1 = false ∧
    (preallocate_records b n true).2.m_record_pointers =
      (List.range n).map (fun i => ((0 : ℕ), i * b.m_max_record_length)) ∧
    (preallocate_records b n true).2.m_blocks.length ≤ 1 ∧
    (∀ p ∈ (preallocate_records b n true).2.m_record_pointers,
      ∀ q ∈ (preallocate_records b n true).2.m_record_pointers,
        p ≠ q →
          p.2 + b.m_max_record_length ≤ q.2 ∨
            q.2 + b.m_max_record_length ≤ p.2) := by
  obtain ⟨h1, h2, h3⟩ := preallocate_exact_fit_spec b n hL hwf hbudget
  refine ⟨h1, h2, h3, ?_⟩
  intro p hp q hq hne
  rw [h2] at hp hq
  simp only [List.mem_map, List.mem_range] at hp hq
  obtain ⟨i, hi, hpi⟩ := hp
  obtain ⟨j, hj, hqj⟩ := hq
  subst hpi
  subst hqj
  have hij : i ≠ j := by
    intro hcon
    exact hne (by rw [hcon])
  rcases Nat.lt_or_ge i j with hlt | hge
  · left
    have : (i + 1) * b.m_max_record_length ≤ j * b.m_max_record_length :=
      Nat.mul_le_mul_right _ hlt
    simp only
    nlinarith
  · right
    have hjlt : j < i := by omega
    have : (j + 1) * b.m_max_record_length ≤ i * b.m_max_record_length :=
      Nat.mul_le_mul_right _ hjlt
    simp only
    nlinarith

/-- Witness for C8, the spec's scenario: budget 1 MiB, 100-byte
records, `preallocate(5000)` succeeds with 5000 distinct
non-overlapping slots. -/
theorem c8_witness :
    (preallocate_records (initBuffer 100 1048576) 5000 true).1 = false ∧
    (preallocate_records (initBuffer 100 1048576) 5000 true).2.m_record_pointers =
      (List.range 5000).map
        (fun i => ((0 : ℕ), i * (initBuffer 100 1048576).m_max_record_length)) ∧
    (preallocate_records (initBuffer 100 1048576) 5000 true).2.m_blocks.length ≤ 1 ∧
    (∀ p ∈ (preallocate_records (initBuffer 100 1048576) 5000 true).2.m_record_pointers,
      ∀ q ∈ (preallocate_records (initBuffer 100 1048576) 5000 true).2.m_record_pointers,
        p ≠ q →
          p.2 + (initBuffer 100 1048576).m_max_record_length ≤ q.2 ∨
            q.2 + (initBuffer 100 1048576).m_max_record_length ≤ p.2) :=
  c8_preallocate_exact_fit (initBuffer 100 1048576) 5000 (by decide)
    (fun _ => rfl) (by decide)


/-! ### Claim C3 -/


/-- Inserting an element of the class `p` never crosses another element
of `p`: it lands in front of all of them (they are ties, and the
insertion only passes strictly smaller elements). -/
theorem filter_sortedInsert_pos {α : Type} (lt : α → α → Bool) (p : α → Bool)
    (x : α) (l : List α) (hx : p x = true)
    (htie : ∀ y, p y = true → lt y x = false) :
    (sortedInsert lt x l).filter p = x :: l.filter p := by
  induction l with
  | nil => simp [sortedInsert, hx]
  | cons y ys ih =>
    by_cases hlt : lt y x = true
    · have hpy : p y = false := by
        by_cases hpy : p y = true
        · rw [htie y hpy] at hlt
          exact absurd hlt (by simp)
        · simpa using hpy
      simp [sortedInsert, hlt, List.filter_cons, hpy, ih]
    · have hlt' : lt y x = false := by simpa using hlt
      simp [sortedInsert, hlt', List.filter_cons, hx]

/-- Inserting an element outside the class `p` does not disturb the
class's subsequence. -/
theorem filter_sortedInsert_neg {α : Type} (lt : α → α → Bool) (p : α → Bool)
    (x : α) (l : List α) (hx : p x = false) :
    (sortedInsert lt x l).filter p = l.filter p := by
  induction l with
  | nil => simp [sortedInsert, hx]
  | cons y ys ih =>
    by_cases hlt : lt y x = true
    · simp [sortedInsert, hlt, List.filter_cons, ih]
    · have hlt' : lt y x = false := by simpa using hlt
      simp [sortedInsert, hlt', List.filter_cons, hx]

/-- Stability of the insertion sort modelling `std::stable_sort`: any
class of pairwise-tied elements keeps its exact input subsequence. -/
theorem filter_stableSort {α : Type} (lt : α → α → Bool) (p : α → Bool)
    (l : List α)
    (htie : ∀ a b, p a = true → p b = true → lt a b = false) :
    (stableSort lt l).filter p = l.filter p := by
  induction l with
  | nil => rfl
  | cons x xs ih =>
    by_cases hx : p x = true
    · rw [stableSort, filter_sortedInsert_pos lt p x (stableSort lt xs) hx
        (fun y hy => htie y x hy hx), ih]
      simp [List.filter_cons, hx]
    · have hx' : p x = false := by simpa using hx
      rw [stableSort, filter_sortedInsert_neg lt p x (stableSort lt xs) hx', ih]
      simp [List.filter_cons, hx']

/-- Stability of the ranged sort: entries beyond `count` are untouched
and `p`-classes within the sorted range keep their order. -/
theorem filter_sortRange {α : Type} (lt : α → α → Bool) (p : α → Bool)
    (l : List α) (count : ℕ)
    (htie : ∀ a b, p a = true → p b = true → lt a b = false) :
    (sortRange lt l count).filter p = l.filter p := by
  rw [sortRange, List.filter_append, filter_stableSort lt p _ htie,
    ← List.filter_append, List.take_append_drop]



/-- Shifting `byteAt` across `tail`. -/
theorem byteAt_tail (s : List ℕ) (i : ℕ) : byteAt s.tail i = byteAt s (i + 1) := by
  cases s with
  | nil => rfl
  | cons a t => rfl

/-- Shifting `byteAt` across `drop`. -/
theorem byteAt_drop (k : ℕ) : ∀ (s : List ℕ) (i : ℕ),
    byteAt (s.drop k) i = byteAt s (k + i) := by
  induction k with
  | zero => intro s i; rw [List.drop_zero, Nat.zero_add]
  | succ k ih =>
    intro s i
    cases s with
    | nil => simp [byteAt]
    | cons a t =>
      rw [List.drop_succ_cons]
      rw [ih t i]
      have : k + 1 + i = (k + i) + 1 := by omega
      rw [this, ← byteAt_tail]
      rfl

/-- Equal compared prefixes give equal bytes at every compared index. -/
theorem byteAt_eq_of_firstBytes_eq : ∀ (n : ℕ) (s t : List ℕ),
    firstBytes s n = firstBytes t n → ∀ i < n, byteAt s i = byteAt t i := by
  intro n
  induction n with
  | zero => intro s t _ i hi; omega
  | succ n ih =>
    intro s t h i hi
    rw [firstBytes, firstBytes] at h
    injection h with h0 hrest
    cases i with
    | zero => exact h0
    | succ i =>
      rw [← byteAt_tail, ← byteAt_tail]
      exact ih s.tail t.tail hrest i (by omega)

/-- Bytewise-equal keys have equal compared prefixes. -/
theorem firstBytes_eq_of_byteAt_eq : ∀ (n : ℕ) (s t : List ℕ),
    (∀ i < n, byteAt s i = byteAt t i) → firstBytes s n = firstBytes t n := by
  intro n
  induction n with
  | zero => intro s t _; rfl
  | succ n ih =>
    intro s t h
    rw [firstBytes, firstBytes, h 0 (by omega)]
    congr 1
    refine ih s.tail t.tail ?_
    intro i hi
    rw [byteAt_tail, byteAt_tail]
    exact h (i + 1) (by omega)

/-- `my_mem_compare` ties (returns false) on keys with equal compared
bytes. -/
theorem my_mem_compare_eq_false_of_firstBytes_eq :
    ∀ (len : ℕ) (s t : List ℕ),
      firstBytes s len = firstBytes t len → my_mem_compare s t len = false := by
  intro len
  induction len with
  | zero => intro s t _; rfl
  | succ len ih =>
    intro s t h
    rw [firstBytes, firstBytes] at h
    injection h with h0 hrest
    rw [my_mem_compare]
    rw [if_neg (by simp [h0])]
    exact ih s.tail t.tail hrest

/-- `my_mem_compare_longkey` ties on keys with equal compared bytes
(compare length at least 4, as in every branch that selects it). -/
theorem my_mem_compare_longkey_eq_false_of_firstBytes_eq
    (len : ℕ) (s t : List ℕ) (hlen : 4 ≤ len)
    (h : firstBytes s len = firstBytes t len) :
    my_mem_compare_longkey s t len = false := by
  have hb := byteAt_eq_of_firstBytes_eq len s t h
  rw [my_mem_compare_longkey]
  rw [if_neg (by simp [hb 0 (by omega)])]
  rw [if_neg (by simp [hb 1 (by omega)])]
  rw [if_neg (by simp [hb 2 (by omega)])]
  rw [if_neg (by simp [hb 3 (by omega)])]
  apply my_mem_compare_eq_false_of_firstBytes_eq
  apply firstBytes_eq_of_byteAt_eq
  intro i hi
  rw [byteAt_drop, byteAt_drop]
  exact hb (4 + i) (by omega)



/-- The compare length the stable path of `sort_buffer` uses: the
trailing `ref_length` row-locator bytes are excluded when stability is
forced and no addon payload is appended (lines 235-239). -/
def effective_compare_len (param : Sort_param) : ℕ :=
  if param.m_force_stable_sort = true ∧ param.using_addon_fields = false
  then param.max_compare_length - param.ref_length
  else param.max_compare_length

/-- Stability of `sort_buffer` for any class `p` of records that are
ties of the selected comparator: with `m_force_stable_sort`, the
filtered subsequence of `p`-records is unchanged by the sort. -/
theorem sort_buffer_filter_stable {α : Type} (param : Sort_param)
    (varlenLt : α → α → Bool) (key : α → List ℕ) (rp : List α) (count : ℕ)
    (p : α → Bool)
    (hstable : param.m_force_stable_sort = true)
    (hvar : param.using_varlen_keys = true →
      ∀ a b, p a = true → p b = true → varlenLt a b = false)
    (hkey : ∀ a b, p a = true → p b = true →
      firstBytes (key a) (effective_compare_len param) =
        firstBytes (key b) (effective_compare_len param)) :
    ((sort_buffer param varlenLt key rp count).2).filter p = rp.filter p := by
  unfold sort_buffer
  dsimp only
  by_cases h1 : count ≤ 1
  · rw [if_pos h1]
  rw [if_neg h1]
  by_cases h2 : param.max_compare_length = 0
  · rw [if_pos h2]
  rw [if_neg h2]
  by_cases h3 : param.using_varlen_keys = true
  · rw [if_pos h3, hstable, if_pos rfl]
    exact filter_sortRange _ _ _ _ (hvar h3)
  rw [if_neg h3]
  rw [if_neg (by simp [hstable] : ¬(count ≤ 100 ∧ param.m_force_stable_sort = false))]
  by_cases h5 : (if param.m_force_stable_sort = true ∧
      param.using_addon_fields = false
    then param.max_compare_length - param.ref_length
    else param.max_compare_length) < 10
  · rw [if_pos h5]
    refine filter_sortRange _ _ _ _ ?_
    intro a b ha hb
    exact my_mem_compare_eq_false_of_firstBytes_eq _ _ _ (hkey a b ha hb)
  · rw [if_neg h5]
    refine filter_sortRange _ _ _ _ ?_
    intro a b ha hb
    refine my_mem_compare_longkey_eq_false_of_firstBytes_eq _ _ _ (by omega) ?_
    exact hkey a b ha hb



/-- Claim C3: with `forceStable = true`, records whose compared key
bytes are equal keep their pre-sort relative order: the subsequence of
records with any given key is preserved (first conjunct; for
variable-length keys the external `cmp_varlen_keys` comparator is
assumed to tie on equal key bytes, which is the meaning of "equal
compared key bytes" for it), and for fixed-length keys the subsequence
of records agreeing on the effectively compared prefix is preserved
(second conjunct).  In particular three records with 1-byte keys
b, a, a at positions 0, 1, 2 end up as a(pos 1), a(pos 2), b
(third conjunct). -/
theorem c3_force_stable_is_stable {α : Type} (param : Sort_param)
    (varlenLt : α → α → Bool) (key : α → List ℕ) (rp : List α)
    (count : ℕ) (x : α)
    (hstable : param.m_force_stable_sort = true)
    (hvar : param.using_varlen_keys = true →
      ∀ a b : α, key a = key b → varlenLt a b = false) :
    (((sort_buffer param varlenLt key rp count).2).filter
        (fun a => decide (key a = key x)) =
      rp.filter (fun a => decide (key a = key x))) ∧
    (param.using_varlen_keys = false →
      ((sort_buffer param varlenLt key rp count).2).filter
          (fun a => decide (firstBytes (key a) (effective_compare_len param) =
            firstBytes (key x) (effective_compare_len param))) =
        rp.filter
          (fun a => decide (firstBytes (key a) (effective_compare_len param) =
            firstBytes (key x) (effective_compare_len param)))) ∧
    (sort_buffer
        { m_force_stable_sort := true, m_sort_algorithm := .FILESORT_ALG_NONE,
          max_compare_length := 1, ref_length := 0,
          using_varlen_keys := false, using_addon_fields := false,
          use_hash := false }
        (fun _ _ : ℕ × List ℕ => false) Prod.snd
        [((0 : ℕ), [(98 : ℕ)]), (1, [97]), (2, [97])] 3).2 =
      [((1 : ℕ), [(97 : ℕ)]), (2, [97]), (0, [98])] := by
  refine ⟨?_, ?_, by decide⟩
  · apply sort_buffer_filter_stable param varlenLt key rp count _ hstable
    · intro h3 a b ha hb
      simp only [decide_eq_true_eq] at ha hb
      exact hvar h3 a b (ha.trans hb.symm)
    · intro a b ha hb
      simp only [decide_eq_true_eq] at ha hb
      rw [ha.trans hb.symm]
  · intro hfix
    apply sort_buffer_filter_stable param varlenLt key rp count _ hstable
    · intro h3
      exact absurd h3 (by simp [hfix])
    · intro a b ha hb
      simp only [decide_eq_true_eq] at ha hb
      exact ha.trans hb.symm



/-- Witness for C3: the spec's three-record scenario, instantiating the
theorem at the concrete parameters and extracting the preserved
subsequence of the records with key bytes `"a"`. -/
theorem c3_witness :
    ((sort_buffer
        { m_force_stable_sort := true, m_sort_algorithm := .FILESORT_ALG_NONE,
          max_compare_length := 1, ref_length := 0,
          using_varlen_keys := false, using_addon_fields := false,
          use_hash := false }
        (fun _ _ : ℕ × List ℕ => false) Prod.snd
        [((0 : ℕ), [(98 : ℕ)]), (1, [97]), (2, [97])] 3).2).filter
        (fun a => decide (a.2 = ((1 : ℕ), [(97 : ℕ)]).2)) =
      [((0 : ℕ), [(98 : ℕ)]), (1, [97]), (2, [97])].filter
        (fun a => decide (a.2 = ((1 : ℕ), [(97 : ℕ)]).2)) :=
  (c3_force_stable_is_stable
    { m_force_stable_sort := true, m_sort_algorithm := .FILESORT_ALG_NONE,
      max_compare_length := 1, ref_length := 0,
      using_varlen_keys := false, using_addon_fields := false,
      use_hash := false }
    (fun _ _ : ℕ × List ℕ => false) Prod.snd
    [((0 : ℕ), [(98 : ℕ)]), (1, [97]), (2, [97])] 3 ((1 : ℕ), [(97 : ℕ)])
    rfl (fun hv => Bool.noConfusion hv)).1



/-- `my_mem_compare` reads only the first `n` bytes of its arguments. -/
theorem my_mem_compare_congr : ∀ (n : ℕ) (s1 s2 t1 t2 : List ℕ),
    firstBytes s1 n = firstBytes t1 n → firstBytes s2 n = firstBytes t2 n →
    my_mem_compare s1 s2 n = my_mem_compare t1 t2 n := by
  intro n
  induction n with
  | zero => intro s1 s2 t1 t2 _ _; rfl
  | succ n ih =>
    intro s1 s2 t1 t2 h1 h2
    rw [firstBytes, firstBytes] at h1 h2
    injection h1 with h10 h1r
    injection h2 with h20 h2r
    rw [my_mem_compare, my_mem_compare, h10, h20]
    by_cases hb : byteAt t1 0 ≠ byteAt t2 0
    · rw [if_pos hb, if_pos hb]
    · rw [if_neg hb, if_neg hb]
      exact ih _ _ _ _ h1r h2r

/-- `my_mem_compare_longkey` reads only the first `n` bytes of its
arguments (`n ≥ 4`, as in every branch that selects it). -/
theorem my_mem_compare_longkey_congr (n : ℕ) (s1 s2 t1 t2 : List ℕ)
    (hn : 4 ≤ n)
    (h1 : firstBytes s1 n = firstBytes t1 n)
    (h2 : firstBytes s2 n = firstBytes t2 n) :
    my_mem_compare_longkey s1 s2 n = my_mem_compare_longkey t1 t2 n := by
  have hb1 := byteAt_eq_of_firstBytes_eq n s1 t1 h1
  have hb2 := byteAt_eq_of_firstBytes_eq n s2 t2 h2
  rw [my_mem_compare_longkey, my_mem_compare_longkey]
  rw [hb1 0 (by omega), hb2 0 (by omega), hb1 1 (by omega), hb2 1 (by omega),
    hb1 2 (by omega), hb2 2 (by omega), hb1 3 (by omega), hb2 3 (by omega)]
  by_cases c0 : byteAt t1 0 ≠ byteAt t2 0
  · rw [if_pos c0, if_pos c0]
  rw [if_neg c0, if_neg c0]
  by_cases c1 : byteAt t1 1 ≠ byteAt t2 1
  · rw [if_pos c1, if_pos c1]
  rw [if_neg c1, if_neg c1]
  by_cases c2 : byteAt t1 2 ≠ byteAt t2 2
  · rw [if_pos c2, if_pos c2]
  rw [if_neg c2, if_neg c2]
  by_cases c3 : byteAt t1 3 ≠ byteAt t2 3
  · rw [if_pos c3, if_pos c3]
  rw [if_neg c3, if_neg c3]
  apply my_mem_compare_congr
  · apply firstBytes_eq_of_byteAt_eq
    intro i hi
    rw [byteAt_drop, byteAt_drop]
    exact hb1 (4 + i) (by omega)
  · apply firstBytes_eq_of_byteAt_eq
    intro i hi
    rw [byteAt_drop, byteAt_drop]
    exact hb2 (4 + i) (by omega)

/-- With fixed-length keys, forced stability, no addon payload, a
non-trivial count, and the documented `ref_length < max_compare_length`
precondition, `sort_buffer` takes the stable path with compare length
`max_compare_length - ref_length`. -/
theorem sort_buffer_stable_path {α : Type} (param : Sort_param)
    (varlenLt : α → α → Bool) (key : α → List ℕ) (rp : List α) (count : ℕ)
    (hfix : param.using_varlen_keys = false)
    (hstable : param.m_force_stable_sort = true)
    (haddon : param.using_addon_fields = false)
    (href : param.ref_length < param.max_compare_length)
    (hcount : 2 ≤ count) :
    sort_buffer param varlenLt key rp count =
      ({ param with m_sort_algorithm := .FILESORT_ALG_STD_STABLE },
        if param.max_compare_length - param.ref_length < 10 then
          sortRange (fun a b => my_mem_compare (key a) (key b)
            (param.max_compare_length - param.ref_length)) rp count
        else
          sortRange (fun a b => my_mem_compare_longkey (key a) (key b)
            (param.max_compare_length - param.ref_length)) rp count) := by
  unfold sort_buffer
  dsimp only
  rw [if_neg (by omega : ¬ count ≤ 1),
    if_neg (by omega : ¬ param.max_compare_length = 0),
    if_neg (by simp [hfix]),
    if_neg (by simp [hstable] :
      ¬(count ≤ 100 ∧ param.m_force_stable_sort = false)),
    if_pos (⟨hstable, haddon⟩ :
      param.m_force_stable_sort = true ∧ param.using_addon_fields = false)]
  by_cases h5 : param.max_compare_length - param.ref_length < 10 <;>
    simp [h5]

/-- Claim C6: with fixed-length keys, `forceStable = true` and no addon
payload (under the documented precondition
`max_compare_length > ref_length`), the comparison covers exactly the
first `max_compare_length - ref_length` bytes of each key: the
selected comparator's length is that value, and the sort result is
unchanged under any modification of the keys beyond those bytes (the
trailing row-locator bytes are excluded). -/
theorem c6_stable_excludes_locator_bytes {α : Type} (param : Sort_param)
    (varlenLt : α → α → Bool) (key1 key2 : α → List ℕ) (rp : List α)
    (count : ℕ)
    (hfix : param.using_varlen_keys = false)
    (hstable : param.m_force_stable_sort = true)
    (haddon : param.using_addon_fields = false)
    (href : param.ref_length < param.max_compare_length)
    (hcount : 2 ≤ count)
    (hagree : ∀ a, firstBytes (key1 a)
        (param.max_compare_length - param.ref_length) =
      firstBytes (key2 a) (param.max_compare_length - param.ref_length)) :
    (sort_buffer_choice param count).1.map cmpChoiceLen =
      some (param.max_compare_length - param.ref_length) ∧
    sort_buffer param varlenLt key1 rp count =
      sort_buffer param varlenLt key2 rp count := by
  constructor
  · unfold sort_buffer_choice
    dsimp only
    rw [if_neg (by omega : ¬ count ≤ 1),
      if_neg (by omega : ¬ param.max_compare_length = 0),
      if_neg (by simp [hfix]),
      if_neg (by simp [hstable] :
        ¬(count ≤ 100 ∧ param.m_force_stable_sort = false)),
      if_pos (⟨hstable, haddon⟩ :
        param.m_force_stable_sort = true ∧ param.using_addon_fields = false)]
    by_cases h5 : param.max_compare_length - param.ref_length < 10 <;>
      simp [h5, cmpChoiceLen]
  · rw [sort_buffer_stable_path param varlenLt key1 rp count hfix hstable
      haddon href hcount,
      sort_buffer_stable_path param varlenLt key2 rp count hfix hstable
      haddon href hcount]
    by_cases h5 : param.max_compare_length - param.ref_length < 10
    · rw [if_pos h5, if_pos h5]
      have hf : (fun a b => my_mem_compare (key1 a) (key1 b)
          (param.max_compare_length - param.ref_length)) =
          (fun a b => my_mem_compare (key2 a) (key2 b)
            (param.max_compare_length - param.ref_length)) := by
        funext a b
        exact my_mem_compare_congr _ _ _ _ _ (hagree a) (hagree b)
      rw [hf]
    · rw [if_neg h5, if_neg h5]
      have hf : (fun a b => my_mem_compare_longkey (key1 a) (key1 b)
          (param.max_compare_length - param.ref_length)) =
          (fun a b => my_mem_compare_longkey (key2 a) (key2 b)
            (param.max_compare_length - param.ref_length)) := by
        funext a b
        exact my_mem_compare_longkey_congr _ _ _ _ _ (by omega)
          (hagree a) (hagree b)
      rw [hf]



/-- Witness for C6 at 3-byte keys with a 1-byte row locator: two key
functions differing only in the locator byte produce identical sort
results, and the selected compare length is 2. -/
theorem c6_witness :
    (sort_buffer_choice
        { m_force_stable_sort := true, m_sort_algorithm := .FILESORT_ALG_NONE,
          max_compare_length := 3, ref_length := 1,
          using_varlen_keys := false, using_addon_fields := false,
          use_hash := false } 2).1.map cmpChoiceLen = some (3 - 1) ∧
    sort_buffer
        { m_force_stable_sort := true, m_sort_algorithm := .FILESORT_ALG_NONE,
          max_compare_length := 3, ref_length := 1,
          using_varlen_keys := false, using_addon_fields := false,
          use_hash := false }
        (fun _ _ : Bool => false)
        (fun a => if a then [1, 2, 3] else [4, 5, 6]) [true, false] 2 =
      sort_buffer
        { m_force_stable_sort := true, m_sort_algorithm := .FILESORT_ALG_NONE,
          max_compare_length := 3, ref_length := 1,
          using_varlen_keys := false, using_addon_fields := false,
          use_hash := false }
        (fun _ _ : Bool => false)
        (fun a => if a then [1, 2, 7] else [4, 5, 8]) [true, false] 2 :=
  c6_stable_excludes_locator_bytes
    { m_force_stable_sort := true, m_sort_algorithm := .FILESORT_ALG_NONE,
      max_compare_length := 3, ref_length := 1,
      using_varlen_keys := false, using_addon_fields := false,
      use_hash := false }
    (fun _ _ : Bool => false)
    (fun a => if a then [1, 2, 3] else [4, 5, 6])
    (fun a => if a then [1, 2, 7] else [4, 5, 8])
    [true, false] 2 rfl rfl rfl (by decide) (by omega) (by decide)


/-! ### Claim C4 -/


/-- `get_merge_cost` is non-decreasing in the element count, for a
monotone cost table and at least one buffer. -/
theorem get_merge_cost_mono_elems (n1 n2 nb es : ℕ) (io kcc : ℝ → ℝ)
    (hio : ∀ x y : ℝ, x ≤ y → io x ≤ io y)
    (hkcc : ∀ x y : ℝ, x ≤ y → kcc x ≤ kcc y)
    (h12 : n1 ≤ n2) (hnb : 1 ≤ nb) :
    get_merge_cost n1 nb es io kcc ≤ get_merge_cost n2 nb es io kcc := by
  unfold get_merge_cost
  dsimp only
  have h1 : ((n1 * es : ℕ) : ℝ) / (IO_SIZE : ℝ) ≤
      ((n2 * es : ℕ) : ℝ) / (IO_SIZE : ℝ) := by
    gcongr

  have h2 : (n1 : ℝ) * Real.logb 2 (nb : ℝ) ≤ (n2 : ℝ) * Real.logb 2 nb := by
    apply mul_le_mul_of_nonneg_right (by exact_mod_cast h12)
    apply Real.logb_nonneg (by norm_num)
    exact_mod_cast hnb
  have hio' := hio _ _ h1
  have hkcc' := hkcc _ _ h2
  linarith

/-- The merge-loop cost is non-decreasing in the remainder element
count, for fixed buffer count and keys per buffer. -/
theorem merge_many_loop_mono (es : ℕ) (io kcc : ℝ → ℝ)
    (hio : ∀ x y : ℝ, x ≤ y → io x ≤ io y)
    (hkcc : ∀ x y : ℝ, x ≤ y → kcc x ≤ kcc y) :
    ∀ nb Q l1 l2 : ℕ, l1 ≤ l2 →
      merge_many_loop es io kcc nb Q l1 ≤ merge_many_loop es io kcc nb Q l2 := by
  intro nb
  induction nb using Nat.strong_induction_on with
  | _ nb ih =>
    intro Q l1 l2 hl
    by_cases h : MERGEBUFF2 ≤ nb
    · conv_lhs => rw [merge_many_loop]
      conv_rhs => rw [merge_many_loop]
      rw [dif_pos h, dif_pos h]
      dsimp only
      have hcalls_lt : 1 + (nb - MERGEBUFF * 3 / 2) / MERGEBUFF < nb := by
        simp only [MERGEBUFF, MERGEBUFF2] at *
        omega
      apply add_le_add (add_le_add (le_refl _) ?_) ?_
      · exact get_merge_cost_mono_elems _ _ _ es io kcc hio hkcc (by omega)
          (by omega)
      · exact ih _ hcalls_lt _ _ _ (by omega)
    · conv_lhs => rw [merge_many_loop]
      conv_rhs => rw [merge_many_loop]
      rw [dif_neg h, dif_neg h]
      exact get_merge_cost_mono_elems _ _ _ es io kcc hio hkcc (by omega)
        (by omega)

/-- Claim C4, amended: for a non-negative, non-decreasing cost table
and fixed `numKeysPerBuffer`/`elemSize`,
`get_merge_many_buffs_cost_fast` is non-decreasing in `numRows` as
long as both row counts produce the same number of full buffers
(`numRows1 / numKeysPerBuffer = numRows2 / numKeysPerBuffer`).  Across
a buffer-count boundary the simulated merge schedule changes and
monotonicity can fail, as the counterexample shows. -/
theorem c4_amended_cost_monotone (n1 n2 Q es : ℕ) (io kcc : ℝ → ℝ)
    (hio_mono : ∀ x y : ℝ, x ≤ y → io x ≤ io y)
    (hio_nonneg : ∀ x : ℝ, 0 ≤ io x)
    (hkcc_mono : ∀ x y : ℝ, x ≤ y → kcc x ≤ kcc y)
    (hkcc_nonneg : ∀ x : ℝ, 0 ≤ kcc x)
    (hQ : 1 ≤ Q) (h12 : n1 ≤ n2) (hsame : n1 / Q = n2 / Q) :
    get_merge_many_buffs_cost_fast n1 Q es io kcc ≤
      get_merge_many_buffs_cost_fast n2 Q es io kcc := by
  have e1 := Nat.div_add_mod n1 Q
  have e2 := Nat.div_add_mod n2 Q
  rw [hsame] at e1
  have hmod : n1 % Q ≤ n2 % Q := by omega
  unfold get_merge_many_buffs_cost_fast
  dsimp only
  rw [hsame]
  have hinit : kcc ((↑(n1 % Q) : ℝ) * Real.log (1 + (↑(n1 % Q) : ℝ))) ≤
      kcc ((↑(n2 % Q) : ℝ) * Real.log (1 + (↑(n2 % Q) : ℝ))) := by
    apply hkcc_mono
    have hc : ((n1 % Q : ℕ) : ℝ) ≤ ((n2 % Q : ℕ) : ℝ) := by exact_mod_cast hmod
    have hlog : Real.log (1 + ((n1 % Q : ℕ) : ℝ)) ≤
        Real.log (1 + ((n2 % Q : ℕ) : ℝ)) := by
      apply Real.log_le_log (by positivity)
      linarith
    have hlog0 : 0 ≤ Real.log (1 + ((n1 % Q : ℕ) : ℝ)) := by
      apply Real.log_nonneg
      have : (0:ℝ) ≤ ((n1 % Q : ℕ) : ℝ) := by positivity
      linarith
    exact mul_le_mul hc hlog hlog0 (by positivity)
  have hloop := merge_many_loop_mono es io kcc hio_mono hkcc_mono
    (n2 / Q) Q (n1 % Q) (n2 % Q) hmod
  linarith

/-- Witness for the amended C4 at `numRows = 4` and `5`,
`numKeysPerBuffer = 2` (both give 2 full buffers), the zero cost
table. -/
theorem c4_witness :
    get_merge_many_buffs_cost_fast 4 2 1 (fun _ => 0) (fun _ => 0) ≤
      get_merge_many_buffs_cost_fast 5 2 1 (fun _ => 0) (fun _ => 0) :=
  c4_amended_cost_monotone 4 5 2 1 (fun _ => 0) (fun _ => 0)
    (fun _ _ _ => le_refl 0) (fun _ => le_refl 0)
    (fun _ _ _ => le_refl 0) (fun _ => le_refl 0)
    (by norm_num) (by norm_num) (by norm_num)

/-- Upper-bounding `k * logb 2 a` by comparing `a^k` against a power
of 2. -/
theorem nat_pow_logb_le (a k m : ℕ) (ha : 0 < a) (h : (a : ℝ)^k ≤ 2^m) :
    (k : ℝ) * Real.logb 2 (a : ℝ) ≤ (m : ℝ) := by
  have h1 : Real.logb 2 ((a : ℝ)^k) ≤ Real.logb 2 ((2 : ℝ)^m) :=
    Real.logb_le_logb_of_le (by norm_num) (by positivity) h
  rw [Real.logb_pow, Real.logb_pow,
    Real.logb_self_eq_one (by norm_num)] at h1
  linarith

/-- Lower-bounding `k * logb 2 a` by comparing `a^k` against a power
of 2. -/
theorem nat_pow_logb_ge (a k m : ℕ) (h : (2 : ℝ)^m ≤ (a : ℝ)^k) :
    (m : ℝ) ≤ (k : ℝ) * Real.logb 2 (a : ℝ) := by
  have h1 : Real.logb 2 ((2 : ℝ)^m) ≤ Real.logb 2 ((a : ℝ)^k) :=
    Real.logb_le_logb_of_le (by norm_num) (by positivity) h
  rw [Real.logb_pow, Real.logb_pow,
    Real.logb_self_eq_one (by norm_num)] at h1
  linarith

/-- Evaluation of the cost estimate at 14 rows, 1 key per buffer,
element size 1, zero I/O cost, and the clamp cost function
`x ↦ max 0 (min (x - 29) 1)` (non-negative and non-decreasing): 14
buffers stay below `MERGEBUFF2`, so the final merge is simulated over
`14 * log2(15) ≈ 54.7` comparisons, which the clamp maps to 1. -/
theorem c4_cost14_eval :
    get_merge_many_buffs_cost_fast 14 1 1 (fun _ => 0)
      (fun x => max 0 (min (x - 29) 1)) = 1 := by
  have hstep0 : ∀ v : ℝ, v ≤ 29 → max 0 (min (v - 29) 1) = (0:ℝ) := by
    intro v hv
    rw [max_eq_left]
    exact le_trans (min_le_left _ _) (by linarith)
  have hstep1 : ∀ v : ℝ, 30 ≤ v → max 0 (min (v - 29) 1) = (1:ℝ) := by
    intro v hv
    rw [min_eq_right (by linarith), max_eq_right (by norm_num)]
  unfold get_merge_many_buffs_cost_fast
  dsimp only
  conv_lhs => rw [merge_many_loop]
  rw [dif_neg (by norm_num [MERGEBUFF2])]
  unfold get_merge_cost
  dsimp only
  norm_num
  rw [hstep0 (Real.log 2) (by have := Real.log_two_lt_d9; linarith),
    hstep1 (14 * Real.logb 2 15) (by
      have h := nat_pow_logb_ge 15 14 30 (by norm_num)
      push_cast at h
      linarith)]
  norm_num

/-- Evaluation of the cost estimate at 15 rows under the same cost
table: 15 buffers reach `MERGEBUFF2`, the schedule splits into merges
of `7 * log2 7 ≈ 19.7`, `8 * log2 9 ≈ 25.4` and `15 * log2 2 = 15`
comparisons — each below the clamp's threshold — so the total is 0. -/
theorem c4_cost15_eval :
    get_merge_many_buffs_cost_fast 15 1 1 (fun _ => 0)
      (fun x => max 0 (min (x - 29) 1)) = 0 := by
  have hstep0 : ∀ v : ℝ, v ≤ 29 → max 0 (min (v - 29) 1) = (0:ℝ) := by
    intro v hv
    rw [max_eq_left]
    exact le_trans (min_le_left _ _) (by linarith)
  unfold get_merge_many_buffs_cost_fast
  dsimp only
  conv_lhs => rw [merge_many_loop]
  rw [dif_pos (by norm_num [MERGEBUFF2])]
  dsimp only
  norm_num [MERGEBUFF, MERGEBUFF2]
  conv_lhs => rw [merge_many_loop]
  rw [dif_neg (by norm_num [MERGEBUFF2])]
  unfold get_merge_cost
  dsimp only
  norm_num
  rw [hstep0 (Real.log 2) (by have := Real.log_two_lt_d9; linarith),
    hstep0 (7 * Real.logb 2 7) (by
      have h := nat_pow_logb_le 7 7 29 (by norm_num) (by norm_num)
      push_cast at h
      linarith),
    hstep0 (8 * Real.logb 2 9) (by
      have h := nat_pow_logb_le 9 8 29 (by norm_num) (by norm_num)
      push_cast at h
      linarith)]
  norm_num

/-- Claim C4 counterexample: with the non-negative, non-decreasing
cost table `io = 0`, `kcc = x ↦ max 0 (min (x - 29) 1)` and fixed
`numKeysPerBuffer = 1`, `elemSize = 1`, the estimate at 15 rows is
strictly below the estimate at 14 rows, refuting monotonicity in
`numRows`. -/
theorem c4_counterexample :
    (∀ x y : ℝ, x ≤ y →
      (fun _ : ℝ => (0:ℝ)) x ≤ (fun _ : ℝ => (0:ℝ)) y) ∧
    (∀ x : ℝ, (0:ℝ) ≤ (fun _ : ℝ => (0:ℝ)) x) ∧
    (∀ x y : ℝ, x ≤ y →
      max 0 (min (x - 29) 1) ≤ max 0 (min (y - 29) 1)) ∧
    (∀ x : ℝ, (0:ℝ) ≤ max 0 (min (x - 29) 1)) ∧
    (14 : ℕ) ≤ 15 ∧
    get_merge_many_buffs_cost_fast 15 1 1 (fun _ => 0)
        (fun x => max 0 (min (x - 29) 1)) <
      get_merge_many_buffs_cost_fast 14 1 1 (fun _ => 0)
        (fun x => max 0 (min (x - 29) 1)) := by
  refine ⟨fun x y _ => le_refl 0, fun x => le_refl 0, ?_,
    fun x => le_max_left 0 _, by norm_num, ?_⟩
  · intro x y hxy
    exact max_le_max (le_refl 0) (min_le_min (by linarith) (le_refl 1))
  · rw [c4_cost14_eval, c4_cost15_eval]
    norm_num


end Filesort
